import Mathlib

/-!
Verification of the playlist / download coordinator of the MT5ABot
repository (src/DiscordBot/Cogs/Music/playlist.py).

The Python source is shallowly embedded below:
pure queue manipulation becomes functions on lists, the asyncio download
state machine of PlaylistEntry becomes an explicit step function over an
entry configuration, and the external collaborators (youtube-dl, aiohttp,
hashlib, the filesystem) are passed in as explicit data (their outcomes),
exactly where the source consumes their results.
-/

set_option maxHeartbeats 1000000

namespace MT5ABot

/-! Section: General list helpers (index / set / lookup facts used by the proofs) -/

theorem getq_set_self {α : Type} : ∀ (l : List α) (i : Nat) (v : α),
    i < l.length → (l.set i v).get? i = some v := by
  intro l
  induction l with
  | nil => intro i v h; simp at h
  | cons a t ih =>
    intro i v h
    cases i with
    | zero => rfl
    | succ j =>
      simp only [List.set]
      simpa using ih j v (by simpa using h)

theorem getq_set_other {α : Type} : ∀ (l : List α) (i j : Nat) (v : α),
    i ≠ j → (l.set i v).get? j = l.get? j := by
  intro l
  induction l with
  | nil => intro i j v _; simp
  | cons a t ih =>
    intro i j v hij
    cases i with
    | zero =>
      cases j with
      | zero => exact absurd rfl hij
      | succ k => rfl
    | succ i2 =>
      cases j with
      | zero => rfl
      | succ k =>
        simp only [List.set]
        simpa using ih i2 k v (fun h => hij (by rw [h]))

theorem getq_append_len {α : Type} : ∀ (l : List α) (a : α),
    (l ++ [a]).get? l.length = some a := by
  intro l a
  induction l with
  | nil => rfl
  | cons b t ih => exact ih

theorem length_set_eq {α : Type} (l : List α) (i : Nat) (v : α) :
    (l.set i v).length = l.length := List.length_set l i v

theorem countP_set_comm {α : Type} (p : α → Bool) : ∀ (l : List α) (i : Nat) (u v : α),
    l.get? i = some u →
    (l.set i v).countP p + (if p u then 1 else 0)
      = l.countP p + (if p v then 1 else 0) := by
  intro l
  induction l with
  | nil => intro i u v h; simp at h
  | cons a t ih =>
    intro i u v h
    cases i with
    | zero =>
      simp only [List.get?] at h
      cases h
      simp only [List.set, List.countP_cons]
      omega
    | succ j =>
      simp only [List.get?] at h
      simp only [List.set, List.countP_cons]
      have := ih j u v h
      omega

theorem countP_append_single {α : Type} (p : α → Bool) (l : List α) (a : α) :
    (l ++ [a]).countP p = l.countP p + (if p a then 1 else 0) := by
  simp [List.countP_append, List.countP_cons]

theorem countP_pos_of_mem {α : Type} (p : α → Bool) : ∀ (l : List α) (i : Nat) (u : α),
    l.get? i = some u → p u = true → 1 ≤ l.countP p := by
  intro l
  induction l with
  | nil => intro i u h; simp at h
  | cons a t ih =>
    intro i u h hp
    cases i with
    | zero =>
      simp only [List.get?] at h
      cases h
      simp [List.countP_cons, hp]
    | succ j =>
      simp only [List.get?] at h
      have := ih j u h hp
      simp only [List.countP_cons]
      omega

/-! Section: Playlist queue model

Models `Playlist.entries` (a FIFO deque), `Playlist._add_entry`
(lines 199-204: append, emit the entry-added event, and call
`entry.get_ready_future()` when `self.peek() is entry`),
`Playlist.get_next_entry` (lines 206-217: popleft, prefetch the new head
when `predownload_next`, and await the popped entry's ready future) and
`Playlist.peek` (lines 219-221).

A `PlaylistEntry` object is abstracted by a value of an arbitrary type with
decidable equality; Python object identity (`is`) is structural equality
here, which coincides with identity under the freshness hypotheses used in
the theorems (a newly constructed entry is never already in the queue). -/

def peekQ {α : Type} (entries : List α) : Option α :=
  entries.head?

/-- Models `Playlist._add_entry`: appends the entry and reports (second
component) whether `self.peek() is entry` held, i.e. whether
`entry.get_ready_future()` was invoked by the add. -/
def addEntryStep {α : Type} [DecidableEq α] (entries : List α) (e : α) : List α × Bool :=
  let entries2 := entries ++ [e]
  (entries2, decide (peekQ entries2 = some e))

/-- Models `Playlist.get_next_entry`: returns the popped head (returned to
the awaiting caller), the remaining queue, and the entry whose
`get_ready_future()` was fire-and-forget triggered for prefetch (none if
prefetch is off or no new head exists). -/
def getNextEntryQ {α : Type} (entries : List α) (predownload_next : Bool) :
    Option α × List α × Option α :=
  match entries with
  | [] => (none, [], none)
  | e :: rest => (some e, rest, if predownload_next then peekQ rest else none)

/-- Queue obtained from N successive `_add_entry` calls starting empty. -/
def buildQ {α : Type} [DecidableEq α] (es : List α) : List α :=
  es.foldl (fun l e => (addEntryStep l e).1) []

/-- N successive `get_next_entry` calls: the popped results in order, and
the final queue. -/
def popN {α : Type} : List α → Nat → List (Option α) × List α
  | entries, 0 => ([], entries)
  | entries, n+1 =>
    let r := getNextEntryQ entries true
    let rest := popN r.2.1 n
    (r.1 :: rest.1, rest.2)

theorem buildQ_foldl {α : Type} [DecidableEq α] :
    ∀ (es acc : List α), es.foldl (fun l e => (addEntryStep l e).1) acc = acc ++ es := by
  intro es
  induction es with
  | nil => intro acc; simp
  | cons e t ih =>
    intro acc
    simp only [List.foldl_cons]
    rw [ih (addEntryStep acc e).1]
    simp [addEntryStep]

theorem buildQ_eq {α : Type} [DecidableEq α] (es : List α) : buildQ es = es := by
  simpa using buildQ_foldl es []

/-- Claim C2: after N successful adds, `peek()` returns the first added
entry, N successive `get_next_entry` calls remove and return the entries
in FIFO insertion order (leaving the queue empty), and `get_next_entry`
on an empty playlist returns nothing. -/
theorem C2_fifo_order {α : Type} [DecidableEq α] (es : List α) (b : Bool) :
    buildQ es = es ∧
    peekQ (buildQ es) = es.head? ∧
    popN es es.length = (es.map some, ([] : List α)) ∧
    getNextEntryQ ([] : List α) b = (none, [], none) := by
  refine ⟨buildQ_eq es, by rw [buildQ_eq es]; rfl, ?_, rfl⟩
  induction es with
  | nil => rfl
  | cons e t ih =>
    simp only [List.length_cons, popN, getNextEntryQ, List.map_cons]
    rw [ih]

/-- Claim C9: the head entry's download is pre-triggered as soon as it is
known: an `_add_entry` whose entry becomes the head (the queue was empty)
invokes that entry's `get_ready_future()` (and an add to a nonempty queue
does not), and `get_next_entry` with prefetch enabled triggers the ready
future of the new head whenever one exists (and triggers nothing when
prefetch is disabled). -/
theorem C9_head_prefetch {α : Type} [DecidableEq α] (pl rest : List α) (e f : α)
    (hfresh : e ∉ pl) (hne : pl ≠ []) (hrest : rest.head? = some f) :
    (addEntryStep ([] : List α) e).2 = true ∧
    (addEntryStep ([] : List α) e).1.head? = some e ∧
    (addEntryStep pl e).2 = false ∧
    (getNextEntryQ (e :: rest) true).2.2 = some f ∧
    (getNextEntryQ (e :: rest) true).1 = some e ∧
    (getNextEntryQ (e :: rest) true).2.1 = rest ∧
    (getNextEntryQ (e :: rest) false).2.2 = none := by
  refine ⟨by simp [addEntryStep, peekQ], by simp [addEntryStep], ?_,
    by simp [getNextEntryQ, peekQ, hrest], rfl, rfl, rfl⟩
  cases pl with
  | nil => exact absurd rfl hne
  | cons h0 t =>
    simp only [addEntryStep, peekQ, List.cons_append, List.head?, decide_eq_false_iff_not]
    intro hcontra
    have : h0 = e := by injection hcontra
    exact hfresh (by rw [this]; exact List.mem_cons_self e t)

/-- Witness for C9 at a concrete queue. -/
theorem C9_head_prefetch_witness :
    ((2 : Nat) ∉ [0, 1] ∧ ([0, 1] : List Nat) ≠ [] ∧ ([5, 6] : List Nat).head? = some 5) ∧
    ((addEntryStep ([] : List Nat) 2).2 = true ∧
     (addEntryStep ([] : List Nat) 2).1.head? = some 2 ∧
     (addEntryStep [0, 1] 2).2 = false ∧
     (getNextEntryQ (2 :: [5, 6]) true).2.2 = some 5 ∧
     (getNextEntryQ (2 :: [5, 6]) true).1 = some 2 ∧
     (getNextEntryQ (2 :: [5, 6]) true).2.1 = [5, 6] ∧
     (getNextEntryQ (2 :: [5, 6]) false).2.2 = none) :=
  ⟨⟨by decide, by decide, by decide⟩,
   C9_head_prefetch [0, 1] [5, 6] 2 5 (by decide) (by decide) (by decide)⟩

/-! Section: Discord objects and entry metadata

Models the live Discord objects that can appear in `PlaylistEntry.meta`
and the collaborators `bot.get_channel` / `channel.server.get_member`
used by `PlaylistEntry.from_json` (lines 256-273). -/

structure DMember where
  className : String
  id : Nat
  name : String
deriving DecidableEq, Repr

structure DServer where
  members : List DMember
deriving DecidableEq, Repr

/-- Models `server.get_member(id)`: the member with that id, or `None`. -/
def DServer.get_member (s : DServer) (i : Nat) : Option DMember :=
  s.members.find? (fun m => m.id == i)

structure DChannel where
  className : String
  id : Nat
  name : String
  server : DServer
deriving DecidableEq, Repr

/-- Possible values stored in an entry's `meta` dict by the code: a live
channel object, the bare channel-name string (`ch or name` fallback in
`from_json`), a live member object, or Python `None` (failed
`get_member`). -/
inductive MetaVal where
  | channel (c : DChannel)
  | chanName (s : String)
  | member (m : DMember)
  | noneV
deriving DecidableEq, Repr

structure Bot where
  channels : List DChannel
deriving DecidableEq, Repr

/-- Models `bot.get_channel(id)`. -/
def Bot.get_channel (b : Bot) (i : Nat) : Option DChannel :=
  b.channels.find? (fun c => c.id == i)

/-! Section: PlaylistEntry data and Playlist.add_entry

`EntryData` carries the fields of `PlaylistEntry.__init__` (lines 236-247):
the identity fields plus the mutable `filename` / `_is_downloading` state.
The `meta` kwargs dict is restricted to the two keys the code ever reads
(`channel` and `author`), kept as two optional fields. -/

structure EntryData where
  url : String
  title : String
  duration : Nat
  expected_filename : Option String
  metaChannel : Option MetaVal := none
  metaAuthor : Option MetaVal := none
  filename : Option String := none
  is_downloading : Bool := false
deriving DecidableEq, Repr

/-- Models `PlaylistEntry.is_downloaded` (lines 249-254). -/
def is_downloaded (e : EntryData) : Bool :=
  if e.is_downloading then false else e.filename.isSome

/-- Result of `downloader.extract_info(..., download=False)`: the fields of
the youtube-dl info dict that `add_entry` reads. -/
structure YInfo where
  type_ : Option String
  webpage_url : Option String
  url : Option String
  extractor : String
  title : Option String
  duration : Option Nat
deriving DecidableEq, Repr

/-- Models the Python `a or b` fallback on optional strings: the first
operand unless it is falsy (`None` or the empty string). -/
def pyOrStr (a b : Option String) : Option String :=
  match a with
  | some s => if s.isEmpty then b else some s
  | none => b

/-- List-of-characters prefix test (executable, kernel-reducible). -/
def listIsPre : List Char → List Char → Bool
  | [], _ => true
  | _ :: _, [] => false
  | a :: as, b :: bs => a == b && listIsPre as bs

/-- List-of-characters infix test (executable, kernel-reducible). -/
def listHasSeq (sub : List Char) : List Char → Bool
  | [] => listIsPre sub []
  | l@(_ :: t) => listIsPre sub l || listHasSeq sub t

/-- Models Python's `s.startswith(pre)`. -/
def strStartsWith (s pre : String) : Bool :=
  listIsPre pre.data s.data

/-- Substring containment, modelling Python's `sub in s`. -/
def strContains (s sub : String) : Bool :=
  listHasSeq sub.data s.data

/-- Errors raised by `Playlist.add_entry`: `ExtractionError(message)` and
`WrongEntryTypeError(message, is_playlist, use_url)`
(src/DiscordBot/Cogs/Music/exceptions.py collaborators). -/
inductive MusicError where
  | extraction (msg : String)
  | wrongEntryType (msg : String) (is_playlist : Bool) (use_url : Option String)
deriving DecidableEq, Repr

/-- Outcomes of the external collaborators consumed by one `add_entry`
call: the `extract_info` result (exception, `None`, or an info dict), the
`get_header(session, url, CONTENT-TYPE)` probe outcome (an exception —
including its 5-second timeout — , an absent header, or a value), and
`ytdl.prepare_filename`. -/
structure ExtractEnv where
  extractInfo : Except String (Option YInfo)
  header : Except String (Option String)
  prepareFilename : YInfo → String

/-- The `PlaylistEntry(...)` constructed at lines 75-82. -/
def builtEntry (env : ExtractEnv) (song_url : String) (info : YInfo)
    (mc ma : Option MetaVal) : EntryData :=
  { url := song_url,
    title := info.title.getD "Untitled",
    duration := info.duration.getD 0,
    expected_filename := some (env.prepareFilename info),
    metaChannel := mc,
    metaAuthor := ma }

/-- Models `Playlist.add_entry` (lines 34-84).  Returns the call's outcome
(the new entry and `len(self.entries)` after the append, or the raised
error) together with the resulting queue. -/
def add_entry (env : ExtractEnv) (entries : List EntryData) (song_url : String)
    (mc ma : Option MetaVal) : Except MusicError (EntryData × Nat) × List EntryData :=
  match env.extractInfo with
  | .error e =>
    (.error (.extraction ("Could not extract information from " ++ song_url ++ "\n\n" ++ e)),
     entries)
  | .ok none =>
    (.error (.extraction ("Cound not extract information from " ++ song_url)), entries)
  | .ok (some info) =>
    if info.type_ = some "playlist" then
      (.error (.wrongEntryType "This is a playlist." true
        (pyOrStr info.webpage_url info.url)), entries)
    else
      let contentTypeError : Option MusicError :=
        if info.extractor = "generic" ∨ info.extractor = "Dropbox" then
          match env.header with
          | .error _ => none
          | .ok none => none
          | .ok (some ct) =>
            if ct.isEmpty then none
            else if strStartsWith ct "application/" || strStartsWith ct "image/" then
              if strContains ct "/ogg" then none
              else some (.extraction
                ("Invalid content type \"" ++ ct ++ "\" for url " ++ song_url))
            else none
        else none
      match contentTypeError with
      | some err => (.error err, entries)
      | none =>
        let entry := builtEntry env song_url info mc ma
        (.ok (entry, entries.length + 1), entries ++ [entry])

/-- Claim C3: a URL whose resolution yields a playlist result makes
`add_entry` raise `WrongEntryTypeError` carrying `is_playlist = true` and
the alternate URL (`webpage_url or url`) without enqueuing anything; a
failing resolution raises `ExtractionError`, as does a resolution
returning nothing — in both cases the queue is also left unchanged. -/
theorem C3_playlist_rejection (entries : List EntryData) (song_url msg : String)
    (mc ma : Option MetaVal) (envP envF envN : ExtractEnv) (info : YInfo)
    (hP : envP.extractInfo = .ok (some info))
    (hpl : info.type_ = some "playlist")
    (hF : envF.extractInfo = .error msg)
    (hN : envN.extractInfo = .ok none) :
    add_entry envP entries song_url mc ma =
      (.error (.wrongEntryType "This is a playlist." true
        (pyOrStr info.webpage_url info.url)), entries) ∧
    add_entry envF entries song_url mc ma =
      (.error (.extraction
        ("Could not extract information from " ++ song_url ++ "\n\n" ++ msg)), entries) ∧
    add_entry envN entries song_url mc ma =
      (.error (.extraction ("Cound not extract information from " ++ song_url)), entries) := by
  refine ⟨?_, ?_, ?_⟩
  · simp [add_entry, hP, hpl]
  · simp [add_entry, hF]
  · simp [add_entry, hN]

def c3infoP : YInfo :=
  { type_ := some "playlist", webpage_url := some "https://yt/playlist",
    url := some "https://yt/raw", extractor := "youtube", title := some "T",
    duration := some 3 }

def c3envP : ExtractEnv :=
  { extractInfo := .ok (some c3infoP), header := .ok none,
    prepareFilename := fun _ => "x.m4a" }

def c3envF : ExtractEnv :=
  { extractInfo := .error "boom", header := .ok none,
    prepareFilename := fun _ => "x.m4a" }

def c3envN : ExtractEnv :=
  { extractInfo := .ok none, header := .ok none,
    prepareFilename := fun _ => "x.m4a" }

/-- Witness for C3 at concrete collaborator outcomes. -/
theorem C3_playlist_rejection_witness :
    (c3envP.extractInfo = .ok (some c3infoP) ∧
     c3infoP.type_ = some "playlist" ∧
     c3envF.extractInfo = .error "boom" ∧
     c3envN.extractInfo = .ok none) ∧
    (add_entry c3envP [] "u" none none =
      (.error (.wrongEntryType "This is a playlist." true
        (pyOrStr c3infoP.webpage_url c3infoP.url)), []) ∧
     add_entry c3envF [] "u" none none =
      (.error (.extraction ("Could not extract information from " ++ "u" ++ "\n\n" ++ "boom")),
       []) ∧
     add_entry c3envN [] "u" none none =
      (.error (.extraction ("Cound not extract information from " ++ "u")), [])) :=
  ⟨⟨rfl, rfl, rfl, rfl⟩,
   C3_playlist_rejection [] "u" "boom" none none c3envP c3envF c3envN c3infoP rfl rfl rfl rfl⟩

/-- Claim C4: for a generic-origin source (`extractor` in generic/Dropbox),
a content-type probe result in `application/*` or `image/*` without an
ogg indicator makes the add fail with the content-type rejection error
naming the offending type (and the queue unchanged); a failed probe
(exception or timeout) is tolerated: the type is treated as unknown and
the add proceeds, enqueuing the entry. -/
theorem C4_content_type (entries : List EntryData) (song_url ct perr : String)
    (mc ma : Option MetaVal) (envR envT : ExtractEnv) (infoR infoT : YInfo)
    (hR : envR.extractInfo = .ok (some infoR))
    (hRg : infoR.extractor = "generic" ∨ infoR.extractor = "Dropbox")
    (hRt : ¬ infoR.type_ = some "playlist")
    (hRh : envR.header = .ok (some ct))
    (hne : ct.isEmpty = false)
    (hct : (strStartsWith ct "application/" || strStartsWith ct "image/") = true)
    (hogg : strContains ct "/ogg" = false)
    (hT : envT.extractInfo = .ok (some infoT))
    (hTg : infoT.extractor = "generic" ∨ infoT.extractor = "Dropbox")
    (hTt : ¬ infoT.type_ = some "playlist")
    (hTh : envT.header = .error perr) :
    add_entry envR entries song_url mc ma =
      (.error (.extraction ("Invalid content type \"" ++ ct ++ "\" for url " ++ song_url)),
       entries) ∧
    add_entry envT entries song_url mc ma =
      (.ok (builtEntry envT song_url infoT mc ma, entries.length + 1),
       entries ++ [builtEntry envT song_url infoT mc ma]) := by
  constructor
  · have hg : (infoR.extractor = "generic" ∨ infoR.extractor = "Dropbox") = True := by
      simp [hRg]
    simp [add_entry, hR, hRt, hRh, hne, hct, hogg, hg]
  · have hg : (infoT.extractor = "generic" ∨ infoT.extractor = "Dropbox") = True := by
      simp [hTg]
    simp [add_entry, hT, hTt, hTh, hg]

def c4info : YInfo :=
  { type_ := none, webpage_url := none, url := some "https://x/file",
    extractor := "generic", title := none, duration := none }

def c4envR : ExtractEnv :=
  { extractInfo := .ok (some c4info), header := .ok (some "image/png"),
    prepareFilename := fun _ => "generic-file.mp3" }

def c4envT : ExtractEnv :=
  { extractInfo := .ok (some c4info), header := .error "timeout after 5 seconds",
    prepareFilename := fun _ => "generic-file.mp3" }

/-- Witness for C4: an `image/png` probe result rejects; a timed-out probe
is tolerated and the entry is enqueued. -/
theorem C4_content_type_witness :
    (c4envR.extractInfo = .ok (some c4info) ∧
     (c4info.extractor = "generic" ∨ c4info.extractor = "Dropbox") ∧
     ¬ c4info.type_ = some "playlist" ∧
     c4envR.header = .ok (some "image/png") ∧
     ("image/png").isEmpty = false ∧
     (strStartsWith "image/png" "application/" || strStartsWith "image/png" "image/") = true ∧
     strContains "image/png" "/ogg" = false ∧
     c4envT.extractInfo = .ok (some c4info) ∧
     c4envT.header = .error "timeout after 5 seconds") ∧
    (add_entry c4envR [] "u" none none =
      (.error (.extraction ("Invalid content type \"" ++ "image/png" ++ "\" for url " ++ "u")),
       []) ∧
     add_entry c4envT [] "u" none none =
      (.ok (builtEntry c4envT "u" c4info none none, 1),
       [] ++ [builtEntry c4envT "u" c4info none none])) :=
  ⟨⟨rfl, Or.inl rfl, by decide, rfl, by decide, by decide, by decide, rfl, rfl⟩,
   C4_content_type [] "u" "image/png" "timeout after 5 seconds" none none c4envR c4envT
     c4info c4info rfl (Or.inl rfl) (by decide) rfl (by decide) (by decide) (by decide)
     rfl (Or.inl rfl) (by decide) rfl⟩

/-! Section: Persisted entry snapshots: from_json / to_json (lines 256-292)

A `Snapshot` is the parsed form of the versioned JSON record
`(version, url, title, duration, downloaded, filename, meta)`; the `meta`
mapping is restricted to the two keys the code reads, `channel` and
`author`, each a `(type, id, name)` record.  Raised Python exceptions
(`KeyError` on a missing `meta` key, `AttributeError` on `.server`, `.id`
or `.name` of an unsuitable object) become `Except.error`. -/

structure MetaRecord where
  type_ : String
  id : Nat
  name : String
deriving DecidableEq, Repr

structure Snapshot where
  version : Nat
  url : String
  title : String
  duration : Nat
  downloaded : Bool
  filename : Option String
  metaChannel : Option MetaRecord
  metaAuthor : Option MetaRecord
deriving DecidableEq, Repr

/-- Models `PlaylistEntry.from_json` (lines 256-273).  Note the
constructor call at line 273 passes the restored `filename` value as the
fifth positional argument, which is `expected_filename`; the entry's own
`filename` field is left at its `__init__` default of `None`. -/
def from_json (bot : Bot) (data : Snapshot) : Except String EntryData :=
  let filename : Option String := if data.downloaded then data.filename else none
  let metaChannel : Option MetaVal :=
    match data.metaChannel with
    | none => none
    | some r =>
      some (match bot.get_channel r.id with
            | some ch => .channel ch
            | none => .chanName r.name)
  match data.metaAuthor with
  | none =>
    .ok { url := data.url, title := data.title, duration := data.duration,
          expected_filename := filename, metaChannel := metaChannel, metaAuthor := none }
  | some arec =>
    match metaChannel with
    | none => .error "KeyError: channel"
    | some (.channel ch) =>
      .ok { url := data.url, title := data.title, duration := data.duration,
            expected_filename := filename, metaChannel := metaChannel,
            metaAuthor := some (match ch.server.get_member arec.id with
                                | some m => .member m
                                | none => .noneV) }
    | some _ => .error "AttributeError: object has no attribute server"

/-- Serialization of one `meta` value at lines 283-289: its class name,
`.id` and `.name`; an object without those attributes raises. -/
def metaRecordOf (v : MetaVal) : Except String MetaRecord :=
  match v with
  | .channel c => .ok { type_ := c.className, id := c.id, name := c.name }
  | .member m => .ok { type_ := m.className, id := m.id, name := m.name }
  | .chanName _ => .error "AttributeError: str object has no attribute id"
  | .noneV => .error "AttributeError: NoneType object has no attribute id"

def optMetaRecord : Option MetaVal → Except String (Option MetaRecord)
  | none => .ok none
  | some v =>
    match metaRecordOf v with
    | .ok r => .ok (some r)
    | .error e => .error e

/-- Models `PlaylistEntry.to_json` (lines 275-292). -/
def to_json (e : EntryData) : Except String Snapshot :=
  match optMetaRecord e.metaChannel, optMetaRecord e.metaAuthor with
  | .ok mc, .ok ma =>
    .ok { version := 1, url := e.url, title := e.title, duration := e.duration,
          downloaded := is_downloaded e, filename := e.filename,
          metaChannel := mc, metaAuthor := ma }
  | .error err, _ => .error err
  | .ok _, .error err => .error err

/-- Serialize-after-restore composition used by the round-trip claim. -/
def roundTrip (bot : Bot) (s : Snapshot) : Except String Snapshot :=
  match from_json bot s with
  | .ok e => to_json e
  | .error err => .error err

/-- The failing input for claim C8: a snapshot with `downloaded = true`
and a recorded filename (and no meta, so nothing else can interfere). -/
def c8Snapshot : Snapshot :=
  { version := 1, url := "https://yt/watch", title := "Song", duration := 100,
    downloaded := true, filename := some "audio_cache/youtube-9R8-Song.m4a",
    metaChannel := none, metaAuthor := none }

def c8Bot : Bot := { channels := [] }

/-- Claim C8 (code bug): the round trip does not preserve a snapshot with
`downloaded = true` — the restored entry re-serializes with
`downloaded = false` and no filename, because `from_json` passes the
restored filename into the constructor's `expected_filename` slot and the
entry's own `filename` stays `None`.  This theorem evaluates the embedded
code at the failing input. -/
theorem C8_roundtrip_fails :
    c8Snapshot.downloaded = true ∧
    roundTrip c8Bot c8Snapshot =
      .ok { c8Snapshot with downloaded := false, filename := none } ∧
    ({ c8Snapshot with downloaded := false, filename := none } : Snapshot) ≠ c8Snapshot ∧
    (∀ e : EntryData, from_json c8Bot c8Snapshot = .ok e →
      e.expected_filename = c8Snapshot.filename ∧ e.filename = none) := by
  refine ⟨rfl, rfl, by decide, ?_⟩
  intro e he
  have : e = { url := c8Snapshot.url, title := c8Snapshot.title,
               duration := c8Snapshot.duration,
               expected_filename := c8Snapshot.filename,
               metaChannel := none, metaAuthor := none } := by
    have h2 := he.symm.trans (rfl : from_json c8Bot c8Snapshot = _)
    simpa [from_json, c8Snapshot, c8Bot] using h2
  rw [this]
  exact ⟨rfl, rfl⟩

/-- Claim C10: a snapshot whose meta has an `author` record but no
`channel` record cannot be restored: `from_json` fails (the author is
resolved through `meta['channel'].server`, and `meta` has no `channel`
key) instead of returning an entry. -/
theorem C10_author_needs_channel (bot : Bot) (s : Snapshot) (arec : MetaRecord)
    (hA : s.metaAuthor = some arec) (hC : s.metaChannel = none) :
    from_json bot s = .error "KeyError: channel" := by
  simp [from_json, hA, hC]

def c10Snapshot : Snapshot :=
  { version := 1, url := "u", title := "t", duration := 0,
    downloaded := false, filename := none,
    metaChannel := none, metaAuthor := some { type_ := "Member", id := 7, name := "bob" } }

/-- Witness for C10 at a concrete snapshot. -/
theorem C10_author_needs_channel_witness :
    (c10Snapshot.metaAuthor = some { type_ := "Member", id := 7, name := "bob" } ∧
     c10Snapshot.metaChannel = none) ∧
    from_json c8Bot c10Snapshot = .error "KeyError: channel" :=
  ⟨⟨rfl, rfl⟩,
   C10_author_needs_channel c8Bot c10Snapshot { type_ := "Member", id := 7, name := "bob" }
     rfl rfl⟩

/-! Section: String splitting helpers (Python rsplit with maxsplit 1) -/

/-- Models Python's `s.rsplit(sep, 1)` when the separator occurs: the text
before the last occurrence and the text after it; `none` when the
separator is absent (in which case `rsplit` returns the one-element list
`[s]`). -/
def rsplitLast (sep : Char) (s : String) : Option (String × String) :=
  match s.data.reverse.span (fun c => c != sep) with
  | (_, []) => none
  | (revAfter, _ :: revBefore) =>
    some (String.mk revBefore.reverse, String.mk revAfter.reverse)

/-- Models `s.rsplit(sep, 1)[0]`: everything before the last occurrence of
the separator, or the whole string when the separator is absent. -/
def rstripAfterLast (sep : Char) (s : String) : String :=
  match rsplitLast sep s with
  | none => s
  | some (b, _) => b

theorem strExt (s t : String) (h : s.data = t.data) : s = t := by
  cases s; cases t; exact congrArg String.mk h

theorem dropWhile_head_false {α : Type} (p : α → Bool) :
    ∀ (l : List α) (x : α) (xs : List α), l.dropWhile p = x :: xs → p x = false := by
  intro l
  induction l with
  | nil => intro x xs h; simp [List.dropWhile] at h
  | cons a t ih =>
    intro x xs h
    by_cases hp : p a
    · rw [List.dropWhile_cons_of_pos hp] at h
      exact ih x xs h
    · rw [List.dropWhile_cons_of_neg hp] at h
      cases h
      simpa using hp

/-- Characterization of a successful `rsplitLast`: the original string is
the before-part, the separator, and the after-part in order. -/
theorem rsplitLast_eq (sep : Char) (s b a : String)
    (h : rsplitLast sep s = some (b, a)) :
    s.data = b.data ++ sep :: a.data := by
  unfold rsplitLast at h
  rw [List.span_eq_take_drop] at h
  cases hd : s.data.reverse.dropWhile (fun c => c != sep) with
  | nil => rw [hd] at h; simp at h
  | cons c revBefore =>
    rw [hd] at h
    simp only [Option.some.injEq, Prod.mk.injEq] at h
    obtain ⟨hb, ha⟩ := h
    have hcsep : c = sep := by
      have := dropWhile_head_false (fun c => c != sep) s.data.reverse c revBefore hd
      simpa using this
    have hsplit : s.data.reverse
        = s.data.reverse.takeWhile (fun c => c != sep) ++ (c :: revBefore) := by
      rw [← hd]; exact (List.takeWhile_append_dropWhile _ _).symm
    have hdata : s.data = revBefore.reverse ++ c :: (s.data.reverse.takeWhile
        (fun c => c != sep)).reverse := by
      have := congrArg List.reverse hsplit
      simpa [List.reverse_append] using this
    rw [hdata, hcsep, ← hb, ← ha]

/-! Section: Generic-source cache path of PlaylistEntry._download (lines 308-336)

The download directory is a list of files (name and byte size); the
content-length probe outcome is `some n` when
`int(await get_header(..., CONTENT-LENGTH))` succeeded with value `n` and
`none` when anything in that `try` raised (probe failure, missing header,
non-integer value) — the code then uses `rsize = 0`.  The result says
whether the entry reuses a cached file (`self.filename = lfile`) or calls
`self._really_download(hash=True)`; `none` models the `ValueError` raised
by the unpacking when the expected base name has no extension dot. -/

structure CacheFile where
  name : String
  size : Nat
deriving DecidableEq, Repr

inductive GenericCacheStep where
  | cached (lfile : String)
  | reallyDownload (useHash : Bool)
deriving DecidableEq, Repr

def genericCacheCheck (files : List CacheFile) (expectedBasename : String)
    (rsize? : Option Nat) : Option GenericCacheStep :=
  match rsplitLast '.' expectedBasename with
  | none => none
  | some (noex, _) =>
    let flistdir := files.map (fun f => rstripAfterLast '-' f.name)
    if noex ∈ flistdir then
      let rsize := rsize?.getD 0
      match files.get? (flistdir.indexOf noex) with
      | none => none
      | some lfile =>
        if lfile.size ≠ rsize then some (.reallyDownload true)
        else some (.cached lfile.name)
    else some (.reallyDownload true)

/-- Counterexample to claim C6 as stated: the download directory holds a
matching zero-byte file and the content-length probe fails; the code
treats the failed probe as remote size 0, finds it equal to the local
size, and reuses the cached file instead of forcing a real download. -/
theorem C6_probe_failure_counterexample :
    genericCacheCheck [{ name := "generic-song-deadbeef.mp3", size := 0 }]
        "generic-song.mp3" none
      = some (.cached "generic-song-deadbeef.mp3") ∧
    genericCacheCheck [{ name := "generic-song-deadbeef.mp3", size := 0 }]
        "generic-song.mp3" none
      ≠ some (.reallyDownload true) := by
  constructor
  · decide
  · decide

/-- Claim C6 (amended): with a matching suffix-stripped file present, the
local size is compared against the probed remote length with probe
failure treated as a remote length of 0: equal sizes reuse the local file
(no real download), differing sizes force `_really_download(hash=True)`;
with no matching file the real download with hash-disambiguation runs
unconditionally. -/
theorem C6_generic_cache (files : List CacheFile) (base noex ext : String)
    (rsize? : Option Nat)
    (hsplit : rsplitLast '.' base = some (noex, ext)) :
    (noex ∉ files.map (fun f => rstripAfterLast '-' f.name) →
       genericCacheCheck files base rsize? = some (.reallyDownload true)) ∧
    (∀ lfile : CacheFile,
       noex ∈ files.map (fun f => rstripAfterLast '-' f.name) →
       files.get? ((files.map (fun f => rstripAfterLast '-' f.name)).indexOf noex)
         = some lfile →
       genericCacheCheck files base rsize? =
         some (if lfile.size ≠ rsize?.getD 0 then .reallyDownload true
               else .cached lfile.name)) := by
  constructor
  · intro hnot
    simp only [genericCacheCheck, hsplit]
    rw [if_neg hnot]
  · intro lfile hmem hget
    simp only [genericCacheCheck, hsplit]
    rw [if_pos hmem, hget]
    by_cases hs : lfile.size = rsize?.getD 0
    · simp [hs]
    · simp [hs]

/-- Witness for the amended C6 at concrete directories: a matching file of
equal size is reused; a matching file of differing size forces the
hash-disambiguated real download; an unmatched directory forces it too. -/
theorem C6_generic_cache_witness :
    (rsplitLast '.' "generic-song.mp3" = some ("generic-song", "mp3")) ∧
    (("generic-song" ∉
        ([{ name := "other.mp3", size := 5 }] : List CacheFile).map
          (fun f => rstripAfterLast '-' f.name) →
      genericCacheCheck [{ name := "other.mp3", size := 5 }] "generic-song.mp3" (some 5)
        = some (.reallyDownload true)) ∧
     (∀ lfile : CacheFile,
       "generic-song" ∈
         ([{ name := "other.mp3", size := 5 }] : List CacheFile).map
           (fun f => rstripAfterLast '-' f.name) →
       ([{ name := "other.mp3", size := 5 }] : List CacheFile).get?
           ((([{ name := "other.mp3", size := 5 }] : List CacheFile).map
             (fun f => rstripAfterLast '-' f.name)).indexOf "generic-song")
         = some lfile →
       genericCacheCheck [{ name := "other.mp3", size := 5 }] "generic-song.mp3" (some 5) =
         some (if lfile.size ≠ (some 5).getD 0 then .reallyDownload true
               else .cached lfile.name))) ∧
    genericCacheCheck [{ name := "generic-song-feedface.mp3", size := 5 }]
        "generic-song.mp3" (some 5)
      = some (.cached "generic-song-feedface.mp3") ∧
    genericCacheCheck [{ name := "generic-song-feedface.mp3", size := 4 }]
        "generic-song.mp3" (some 5)
      = some (.reallyDownload true) ∧
    genericCacheCheck [{ name := "other.mp3", size := 5 }] "generic-song.mp3" (some 5)
      = some (.reallyDownload true) := by
  refine ⟨by decide,
    C6_generic_cache [{ name := "other.mp3", size := 5 }] "generic-song.mp3"
      "generic-song" "mp3" (some 5) (by decide),
    by decide, by decide, by decide⟩

/-! Section: Hash disambiguation in PlaylistEntry._really_download (lines 374-399)
and md5sum (lines 442-447)

The filesystem is a list of (path, contents) pairs; hashlib is an
external collaborator, so `md5sum` receives the full md5 hex digest of
the file's bytes (a 32-character lowercase-hex string) and performs the
code's own suffix-taking.  `hashRename` models lines 388-399: splice the
short hash into the name before the extension, then either discard the
fresh download (if the disambiguated name already exists) or rename the
fresh download to it. -/

/-- Models `md5sum(filename, limit)`'s return: `hexdigest()[-limit:]` of
the file's digest.  Note Python's `[-0:]` is the whole string. -/
def md5sum (hexdigest : String) (limit : Nat) : String :=
  if limit = 0 then hexdigest
  else String.mk (hexdigest.data.drop (hexdigest.data.length - limit))

/-- The spliced name built at line 392:
`md5sum(unhashed, 8).join('-.').join(unhashed.rsplit('.', 1))`, i.e.
`base ++ "-" ++ hashpart ++ "." ++ ext` when the name has an extension
and the unchanged name otherwise. -/
def hashedFilename (unhashed hashpart : String) : String :=
  let sep := "-" ++ hashpart ++ "."
  match rsplitLast '.' unhashed with
  | none => unhashed
  | some (b, ext) => b ++ sep ++ ext

def removeFile (fs : List (String × String)) (p : String) : List (String × String) :=
  fs.filter (fun kv => kv.1 != p)

/-- Models lines 390-399 of `_really_download` with `hash=True`: the
fresh download sits at `unhashed` in `fs`; returns the final
`self.filename` and the resulting directory contents (`os.unlink` of the
fresh file when the disambiguated name already exists, `os.rename`
otherwise). -/
def hashRename (fs : List (String × String)) (unhashed digest : String) :
    String × List (String × String) :=
  let fname := hashedFilename unhashed (md5sum digest 8)
  if (List.lookup fname fs).isSome then
    (fname, removeFile fs unhashed)
  else
    (fname,
     match List.lookup unhashed fs with
     | some c => removeFile fs unhashed ++ [(fname, c)]
     | none => fs)

/-- Lowercase hexadecimal character test (md5 hexdigest alphabet). -/
def isHexChar (c : Char) : Bool :=
  c.isDigit || (decide ('a' ≤ c) && decide (c ≤ 'f'))

theorem lookup_removeFile_self (p : String) :
    ∀ fs : List (String × String), List.lookup p (removeFile fs p) = none := by
  intro fs
  induction fs with
  | nil => rfl
  | cons kv t ih =>
    by_cases h : kv.1 = p
    · simp only [removeFile, List.filter]
      rw [show (kv.1 != p) = false by simp [h]]
      exact ih
    · simp only [removeFile, List.filter]
      rw [show (kv.1 != p) = true by simp [h]]
      simp only [List.lookup]
      rw [show (p == kv.1) = false by
        simp only [beq_eq_false_iff_ne]
        exact Ne.symm h]
      exact ih

theorem lookup_removeFile_other (p k : String) (hk : k ≠ p) :
    ∀ fs : List (String × String), List.lookup k (removeFile fs p) = List.lookup k fs := by
  intro fs
  induction fs with
  | nil => rfl
  | cons kv t ih =>
    by_cases h : kv.1 = p
    · simp only [removeFile, List.filter]
      rw [show (kv.1 != p) = false by simp [h]]
      simp only [List.lookup]
      rw [show (k == kv.1) = false by simp [h, hk]]
      exact ih
    · simp only [removeFile, List.filter]
      rw [show (kv.1 != p) = true by simp [h]]
      simp only [List.lookup]
      cases hkk : (k == kv.1) with
      | true => rfl
      | false => exact ih

theorem lookup_append_right (k : String) (fs2 : List (String × String)) :
    ∀ fs1 : List (String × String), List.lookup k fs1 = none →
      List.lookup k (fs1 ++ fs2) = List.lookup k fs2 := by
  intro fs1
  induction fs1 with
  | nil => intro _; rfl
  | cons kv t ih =>
    intro h
    simp only [List.lookup, List.cons_append] at h ⊢
    cases hkk : (k == kv.1) with
    | true => rw [hkk] at h; simp at h
    | false => rw [hkk] at h; exact ih h

theorem lookup_singleton_self (k v : String) :
    List.lookup k ([(k, v)] : List (String × String)) = some v := by
  simp [List.lookup]

/-- Claim C7: with hash-disambiguation requested, the 8-character
(lowercase-hex) tail of the content hash is spliced into the file name
before the extension, separated by a dash; the fresh download is renamed
to that name, unless a file with exactly that name already exists, in
which case the fresh download is deleted and the existing file kept; and
two colliding downloads whose hash tails differ end with distinct
resolved names that differ only in the 8-character tail. -/
theorem C7_hash_disambiguation (fs : List (String × String))
    (unhashed base ext content digest : String)
    (hsplit : rsplitLast '.' unhashed = some (base, ext))
    (hdig : digest.data.length = 32)
    (hhex : digest.data.all isHexChar = true)
    (hfresh : List.lookup unhashed fs = some content) :
    (md5sum digest 8).data.length = 8 ∧
    (md5sum digest 8).data.all isHexChar = true ∧
    hashedFilename unhashed (md5sum digest 8)
      = base ++ "-" ++ md5sum digest 8 ++ "." ++ ext ∧
    (hashRename fs unhashed digest).1 = hashedFilename unhashed (md5sum digest 8) ∧
    (List.lookup (hashedFilename unhashed (md5sum digest 8)) fs = none →
       List.lookup (hashedFilename unhashed (md5sum digest 8))
           (hashRename fs unhashed digest).2 = some content ∧
       List.lookup unhashed (hashRename fs unhashed digest).2 = none) ∧
    (∀ oldContent : String,
       List.lookup (hashedFilename unhashed (md5sum digest 8)) fs = some oldContent →
       List.lookup (hashedFilename unhashed (md5sum digest 8))
           (hashRename fs unhashed digest).2 = some oldContent ∧
       List.lookup unhashed (hashRename fs unhashed digest).2 = none) ∧
    (∀ digest2 : String, digest2.data.length = 32 →
       md5sum digest2 8 ≠ md5sum digest 8 →
       hashedFilename unhashed (md5sum digest2 8)
           ≠ hashedFilename unhashed (md5sum digest 8) ∧
       hashedFilename unhashed (md5sum digest2 8)
           = base ++ "-" ++ md5sum digest2 8 ++ "." ++ ext) := by
  have hlen8 : ∀ d : String, d.data.length = 32 → (md5sum d 8).data.length = 8 := by
    intro d hd
    simp [md5sum, hd]
  have hform : ∀ h8 : String, hashedFilename unhashed h8 = base ++ "-" ++ h8 ++ "." ++ ext := by
    intro h8
    simp only [hashedFilename, hsplit]
    apply strExt
    simp [String.data_append, List.append_assoc]
  have hudata : unhashed.data = base.data ++ '.' :: ext.data :=
    rsplitLast_eq '.' unhashed base ext hsplit
  have hne : ∀ h8 : String, h8.data.length = 8 →
      hashedFilename unhashed h8 ≠ unhashed := by
    intro h8 h8len heq
    have := congrArg (fun s => s.data.length) heq
    rw [hform h8] at this
    simp only [String.data_append, List.length_append, hudata] at this
    simp only [List.length_cons] at this
    have hdash : ("-" : String).data.length = 1 := rfl
    have hdot : ("." : String).data.length = 1 := rfl
    omega
  refine ⟨hlen8 digest hdig, ?_, hform (md5sum digest 8), ?_, ?_, ?_, ?_⟩
  · rw [List.all_eq_true] at hhex ⊢
    intro c hc
    apply hhex
    have : c ∈ digest.data.drop (digest.data.length - 8) := by
      simpa [md5sum] using hc
    exact List.drop_subset _ _ this
  · simp only [hashRename]
    by_cases hex : (List.lookup (hashedFilename unhashed (md5sum digest 8)) fs).isSome
    · rw [if_pos hex]
    · rw [if_neg hex]
  · intro hnone
    have hnot : (List.lookup (hashedFilename unhashed (md5sum digest 8)) fs).isSome = false := by
      rw [hnone]; rfl
    constructor
    · simp only [hashRename]
      rw [if_neg (by simp [hnot]), hfresh]
      have h1 : List.lookup (hashedFilename unhashed (md5sum digest 8))
          (removeFile fs unhashed) = none := by
        rw [lookup_removeFile_other unhashed _ (hne (md5sum digest 8) (hlen8 digest hdig))]
        exact hnone
      rw [lookup_append_right _ _ _ h1]
      exact lookup_singleton_self _ _
    · simp only [hashRename]
      rw [if_neg (by simp [hnot]), hfresh]
      have h1 : List.lookup unhashed (removeFile fs unhashed) = none :=
        lookup_removeFile_self unhashed fs
      rw [lookup_append_right _ _ _ h1]
      simp only [List.lookup]
      rw [show (unhashed == hashedFilename unhashed (md5sum digest 8)) = false by
        simp only [beq_eq_false_iff_ne]
        exact Ne.symm (hne (md5sum digest 8) (hlen8 digest hdig))]
  · intro oldContent hsome
    have hex : (List.lookup (hashedFilename unhashed (md5sum digest 8)) fs).isSome = true := by
      rw [hsome]; rfl
    constructor
    · simp only [hashRename]
      rw [if_pos (by simp [hex])]
      rw [lookup_removeFile_other unhashed _ (hne (md5sum digest 8) (hlen8 digest hdig))]
      exact hsome
    · simp only [hashRename]
      rw [if_pos (by simp [hex])]
      exact lookup_removeFile_self unhashed fs
  · intro digest2 hd2 hneq
    refine ⟨?_, hform (md5sum digest2 8)⟩
    intro heq
    apply hneq
    rw [hform (md5sum digest2 8), hform (md5sum digest 8)] at heq
    have hdata := congrArg String.data heq
    simp only [String.data_append, List.append_assoc] at hdata
    have h1 := (List.append_inj hdata rfl).2
    have h2 := (List.append_inj h1 rfl).2
    have h3 := (List.append_inj h2 (by rw [hlen8 digest2 hd2, hlen8 digest hdig])).1
    exact strExt _ _ h3

def c7fs : List (String × String) :=
  [("audio_cache/generic-track.mp3", "FRESHBYTES")]

def c7digest : String := "0123456789abcdef0123456789abcdef"

/-- Witness for C7 at a concrete filesystem and digest. -/
theorem C7_hash_disambiguation_witness :
    (rsplitLast '.' "audio_cache/generic-track.mp3"
       = some ("audio_cache/generic-track", "mp3") ∧
     c7digest.data.length = 32 ∧
     c7digest.data.all isHexChar = true ∧
     List.lookup "audio_cache/generic-track.mp3" c7fs = some "FRESHBYTES") ∧
    ((md5sum c7digest 8).data.length = 8 ∧
     (md5sum c7digest 8).data.all isHexChar = true ∧
     hashedFilename "audio_cache/generic-track.mp3" (md5sum c7digest 8)
       = "audio_cache/generic-track" ++ "-" ++ md5sum c7digest 8 ++ "." ++ "mp3" ∧
     (hashRename c7fs "audio_cache/generic-track.mp3" c7digest).1
       = hashedFilename "audio_cache/generic-track.mp3" (md5sum c7digest 8) ∧
     (List.lookup (hashedFilename "audio_cache/generic-track.mp3" (md5sum c7digest 8)) c7fs
        = none →
       List.lookup (hashedFilename "audio_cache/generic-track.mp3" (md5sum c7digest 8))
           (hashRename c7fs "audio_cache/generic-track.mp3" c7digest).2 = some "FRESHBYTES" ∧
       List.lookup "audio_cache/generic-track.mp3"
           (hashRename c7fs "audio_cache/generic-track.mp3" c7digest).2 = none) ∧
     (∀ oldContent : String,
       List.lookup (hashedFilename "audio_cache/generic-track.mp3" (md5sum c7digest 8)) c7fs
         = some oldContent →
       List.lookup (hashedFilename "audio_cache/generic-track.mp3" (md5sum c7digest 8))
           (hashRename c7fs "audio_cache/generic-track.mp3" c7digest).2 = some oldContent ∧
       List.lookup "audio_cache/generic-track.mp3"
           (hashRename c7fs "audio_cache/generic-track.mp3" c7digest).2 = none) ∧
     (∀ digest2 : String, digest2.data.length = 32 →
       md5sum digest2 8 ≠ md5sum c7digest 8 →
       hashedFilename "audio_cache/generic-track.mp3" (md5sum digest2 8)
           ≠ hashedFilename "audio_cache/generic-track.mp3" (md5sum c7digest 8) ∧
       hashedFilename "audio_cache/generic-track.mp3" (md5sum digest2 8)
           = "audio_cache/generic-track" ++ "-" ++ md5sum digest2 8 ++ "." ++ "mp3")) :=
  ⟨⟨by decide, by decide, by decide, by decide⟩,
   C7_hash_disambiguation c7fs "audio_cache/generic-track.mp3" "audio_cache/generic-track"
     "mp3" "FRESHBYTES" c7digest (by decide) (by decide) (by decide) (by decide)⟩

/-! Section: PlaylistEntry download state machine
(get_ready_future lines 401-416, _download lines 294-372,
_for_each_future lines 418-433)

The asyncio execution is modelled as a small-step system over an entry
configuration.  `getReady` is one `get_ready_future()` call: if the entry
is downloaded it returns an already-resolved future, otherwise it
schedules a `_download()` task (`asyncio.ensure_future`) and registers a
pending waiter.  A scheduled `_download` body runs in two atomic phases,
matching its await points: `startTask` is the guard prologue (return
immediately if `_is_downloading` is set, else set the flag — the only
code before the first await), and `finishTask` is the completion of the
`try/except/finally`: resolve every registered waiter with the entry
(`set_result`) or with the one raised exception (`set_exception`), then
clear the flag (the `finally`).  `invocations` counts downloads that pass
the guard, i.e. actual underlying download work. -/

inductive FutureState where
  | pending
  | resolvedEntry
  | resolvedError (e : String)
deriving DecidableEq, Repr

inductive TaskPhase where
  | notStarted
  | working
  | done
deriving DecidableEq, Repr

structure EntryConfig where
  filename : Option String
  isDownloading : Bool
  waiters : List Nat
  futures : List FutureState
  tasks : List TaskPhase
  invocations : Nat
deriving DecidableEq, Repr

inductive DAction where
  | getReady
  | startTask (i : Nat)
  | finishTask (i : Nat) (outcome : Except String String)

/-- Models `_for_each_future`: every registered waiter is resolved with
the same value. -/
def resolveAll (fs : List FutureState) (ws : List Nat) (v : FutureState) : List FutureState :=
  ws.foldl (fun acc i => acc.set i v) fs

def dstep (c : EntryConfig) (a : DAction) : EntryConfig :=
  match a with
  | .getReady =>
    if !c.isDownloading && c.filename.isSome then
      { c with futures := c.futures ++ [.resolvedEntry] }
    else
      { c with futures := c.futures ++ [.pending],
               waiters := c.waiters ++ [c.futures.length],
               tasks := c.tasks ++ [.notStarted] }
  | .startTask i =>
    if c.tasks.get? i = some .notStarted then
      if c.isDownloading then { c with tasks := c.tasks.set i .done }
      else { c with isDownloading := true, invocations := c.invocations + 1,
                    tasks := c.tasks.set i .working }
    else c
  | .finishTask i outcome =>
    if c.tasks.get? i = some .working then
      match outcome with
      | .ok fname =>
        { c with filename := some fname,
                 futures := resolveAll c.futures c.waiters .resolvedEntry,
                 waiters := [],
                 isDownloading := false,
                 tasks := c.tasks.set i .done }
      | .error e =>
        { c with futures := resolveAll c.futures c.waiters (.resolvedError e),
                 waiters := [],
                 isDownloading := false,
                 tasks := c.tasks.set i .done }
    else c

def drun (c : EntryConfig) (as : List DAction) : EntryConfig :=
  as.foldl dstep c

/-- A freshly constructed, not-yet-downloaded entry (lines 244-246). -/
def dinit : EntryConfig :=
  { filename := none, isDownloading := false, waiters := [], futures := [],
    tasks := [], invocations := 0 }

def isWorking : TaskPhase → Bool
  | .working => true
  | _ => false

/-! ### Step equations of dstep, one per source branch -/

theorem dstep_getReady_ready (c : EntryConfig)
    (hd : (!c.isDownloading && c.filename.isSome) = true) :
    dstep c .getReady = { c with futures := c.futures ++ [.resolvedEntry] } := by
  simp only [dstep]
  rw [hd]
  simp

theorem dstep_getReady_pend (c : EntryConfig)
    (hd : (!c.isDownloading && c.filename.isSome) = false) :
    dstep c .getReady
      = { c with futures := c.futures ++ [.pending],
                 waiters := c.waiters ++ [c.futures.length],
                 tasks := c.tasks ++ [.notStarted] } := by
  simp only [dstep]
  rw [hd]
  simp

theorem dstep_start_skip (c : EntryConfig) (i : Nat)
    (hg : c.tasks.get? i = some TaskPhase.notStarted) (hd : c.isDownloading = true) :
    dstep c (.startTask i) = { c with tasks := c.tasks.set i .done } := by
  simp only [dstep]
  rw [if_pos hg, if_pos hd]

theorem dstep_start_go (c : EntryConfig) (i : Nat)
    (hg : c.tasks.get? i = some TaskPhase.notStarted) (hd : c.isDownloading = false) :
    dstep c (.startTask i)
      = { c with isDownloading := true, invocations := c.invocations + 1,
                 tasks := c.tasks.set i .working } := by
  simp only [dstep]
  rw [if_pos hg, if_neg (by rw [hd]; exact Bool.false_ne_true)]

theorem dstep_start_noop (c : EntryConfig) (i : Nat)
    (hg : ¬ c.tasks.get? i = some TaskPhase.notStarted) :
    dstep c (.startTask i) = c := by
  simp only [dstep]
  rw [if_neg hg]

theorem dstep_finish_ok (c : EntryConfig) (i : Nat) (fname : String)
    (hg : c.tasks.get? i = some TaskPhase.working) :
    dstep c (.finishTask i (.ok fname))
      = { c with filename := some fname,
                 futures := resolveAll c.futures c.waiters .resolvedEntry,
                 waiters := [], isDownloading := false,
                 tasks := c.tasks.set i .done } := by
  simp only [dstep]
  rw [if_pos hg]

theorem dstep_finish_err (c : EntryConfig) (i : Nat) (e : String)
    (hg : c.tasks.get? i = some TaskPhase.working) :
    dstep c (.finishTask i (.error e))
      = { c with futures := resolveAll c.futures c.waiters (.resolvedError e),
                 waiters := [], isDownloading := false,
                 tasks := c.tasks.set i .done } := by
  simp only [dstep]
  rw [if_pos hg]

theorem dstep_finish_noop (c : EntryConfig) (i : Nat) (o : Except String String)
    (hg : ¬ c.tasks.get? i = some TaskPhase.working) :
    dstep c (.finishTask i o) = c := by
  simp only [dstep]
  rw [if_neg hg]

/-- The mutual-exclusion invariant maintained by the `_is_downloading`
flag: the number of `_download` bodies past the guard equals the flag. -/
def mutexInv (c : EntryConfig) : Prop :=
  c.tasks.countP isWorking = (if c.isDownloading then 1 else 0)

theorem mutexInv_step (c : EntryConfig) (a : DAction) (h : mutexInv c) :
    mutexInv (dstep c a) := by
  cases a with
  | getReady =>
    by_cases hd : (!c.isDownloading && c.filename.isSome) = true
    · rw [dstep_getReady_ready c hd]
      exact h
    · rw [dstep_getReady_pend c (by simpa using hd)]
      show (c.tasks ++ [TaskPhase.notStarted]).countP isWorking
        = if c.isDownloading = true then 1 else 0
      rw [countP_append_single]
      rw [show isWorking TaskPhase.notStarted = false from rfl]
      simpa using h
  | startTask i =>
    by_cases hg : c.tasks.get? i = some TaskPhase.notStarted
    · by_cases hd : c.isDownloading
      · rw [dstep_start_skip c i hg hd]
        show (c.tasks.set i TaskPhase.done).countP isWorking
          = if c.isDownloading = true then 1 else 0
        have hc := countP_set_comm isWorking c.tasks i TaskPhase.notStarted TaskPhase.done hg
        rw [show isWorking TaskPhase.notStarted = false from rfl,
            show isWorking TaskPhase.done = false from rfl] at hc
        unfold mutexInv at h
        omega
      · rw [dstep_start_go c i hg (by simpa using hd)]
        show (c.tasks.set i TaskPhase.working).countP isWorking
          = if true = true then 1 else 0
        have hc := countP_set_comm isWorking c.tasks i TaskPhase.notStarted TaskPhase.working hg
        rw [show isWorking TaskPhase.notStarted = false from rfl,
            show isWorking TaskPhase.working = true from rfl] at hc
        have hc2 : (c.tasks.set i TaskPhase.working).countP isWorking
            = c.tasks.countP isWorking + 1 := by simpa using hc
        unfold mutexInv at h
        rw [if_neg hd] at h
        rw [if_pos rfl]
        omega
    · rw [dstep_start_noop c i hg]
      exact h
  | finishTask i outcome =>
    by_cases hg : c.tasks.get? i = some TaskPhase.working
    · have hpos : 1 ≤ c.tasks.countP isWorking :=
        countP_pos_of_mem isWorking c.tasks i TaskPhase.working hg rfl
      have hone : c.tasks.countP isWorking = 1 := by
        unfold mutexInv at h
        by_cases hdd : c.isDownloading
        · rw [if_pos hdd] at h; exact h
        · rw [if_neg hdd] at h; omega
      have hc := countP_set_comm isWorking c.tasks i TaskPhase.working TaskPhase.done hg
      rw [show isWorking TaskPhase.working = true from rfl,
          show isWorking TaskPhase.done = false from rfl] at hc
      cases outcome with
      | ok fname =>
        rw [dstep_finish_ok c i fname hg]
        show (c.tasks.set i TaskPhase.done).countP isWorking
          = if false = true then 1 else 0
        have hc2 : (c.tasks.set i TaskPhase.done).countP isWorking + 1
            = c.tasks.countP isWorking := by simpa using hc
        rw [if_neg (by simp)]
        omega
      | error e =>
        rw [dstep_finish_err c i e hg]
        show (c.tasks.set i TaskPhase.done).countP isWorking
          = if false = true then 1 else 0
        have hc2 : (c.tasks.set i TaskPhase.done).countP isWorking + 1
            = c.tasks.countP isWorking := by simpa using hc
        rw [if_neg (by simp)]
        omega
    · rw [dstep_finish_noop c i outcome hg]
      exact h

theorem mutexInv_run : ∀ (as : List DAction) (c : EntryConfig), mutexInv c →
    mutexInv (drun c as) := by
  intro as
  induction as with
  | nil => intro c h; exact h
  | cons a t ih =>
    intro c h
    exact ih (dstep c a) (mutexInv_step c a h)

theorem mutex_at_most_one (as : List DAction) :
    (drun dinit as).tasks.countP isWorking ≤ 1 := by
  have h := mutexInv_run as dinit rfl
  unfold mutexInv at h
  by_cases hd : (drun dinit as).isDownloading
  · rw [if_pos hd] at h; omega
  · rw [if_neg hd] at h; omega

/-! ### Properties of resolveAll -/

theorem resolveAll_cons (fs : List FutureState) (w : Nat) (ws : List Nat) (v : FutureState) :
    resolveAll fs (w :: ws) v = resolveAll (fs.set w v) ws v := rfl

theorem resolveAll_length (v : FutureState) : ∀ (ws : List Nat) (fs : List FutureState),
    (resolveAll fs ws v).length = fs.length := by
  intro ws
  induction ws with
  | nil => intro fs; rfl
  | cons w t ih =>
    intro fs
    rw [resolveAll_cons, ih, List.length_set]

theorem resolveAll_not_mem (v : FutureState) : ∀ (ws : List Nat) (fs : List FutureState)
    (j : Nat), j ∉ ws → (resolveAll fs ws v).get? j = fs.get? j := by
  intro ws
  induction ws with
  | nil => intro fs j _; rfl
  | cons w t ih =>
    intro fs j hj
    rw [resolveAll_cons, ih (fs.set w v) j (fun hmem => hj (List.mem_cons_of_mem w hmem))]
    exact getq_set_other fs w j v (fun he => hj (he ▸ List.mem_cons_self w t))

theorem resolveAll_mem (v : FutureState) : ∀ (ws : List Nat) (fs : List FutureState)
    (j : Nat), j ∈ ws → j < fs.length → (resolveAll fs ws v).get? j = some v := by
  intro ws
  induction ws with
  | nil => intro fs j hj _; simp at hj
  | cons w t ih =>
    intro fs j hj hlen
    by_cases hjt : j ∈ t
    · rw [resolveAll_cons]
      exact ih (fs.set w v) j hjt (by rw [List.length_set]; exact hlen)
    · have hjw : j = w := by
        rcases List.mem_cons.mp hj with h | h
        · exact h
        · exact absurd h hjt
      rw [resolveAll_cons, resolveAll_not_mem v t (fs.set w v) j hjt, hjw]
      exact getq_set_self fs w v (hjw ▸ hlen)

/-! ### The canonical two-caller schedule for claim C1 -/

/-- N callers request readiness of a not-yet-downloaded entry; then the
event loop runs every scheduled `_download` task up to its guard; the one
that passed the guard completes successfully. -/
def c1sched (n : Nat) (fname : String) : List DAction :=
  List.replicate n .getReady ++ (List.range n).map DAction.startTask
    ++ [.finishTask 0 (.ok fname)]

theorem afterGetReadyN (n : Nat) :
    drun dinit (List.replicate n .getReady)
      = { filename := none, isDownloading := false, waiters := List.range n,
          futures := List.replicate n .pending,
          tasks := List.replicate n .notStarted, invocations := 0 } := by
  induction n with
  | zero => rfl
  | succ m ih =>
    rw [List.replicate_succ']
    unfold drun
    rw [List.foldl_append]
    show dstep (drun dinit (List.replicate m DAction.getReady)) DAction.getReady = _
    rw [ih]
    simp [dstep, List.replicate_succ', List.range_succ]

theorem startTask_flagged_step (c : EntryConfig) (i : Nat) (hd : c.isDownloading = true) :
    (dstep c (.startTask i)).filename = c.filename ∧
    (dstep c (.startTask i)).isDownloading = true ∧
    (dstep c (.startTask i)).waiters = c.waiters ∧
    (dstep c (.startTask i)).futures = c.futures ∧
    (dstep c (.startTask i)).invocations = c.invocations ∧
    (∀ j, c.tasks.get? j ≠ some TaskPhase.notStarted →
      (dstep c (.startTask i)).tasks.get? j = c.tasks.get? j) := by
  simp only [dstep]
  by_cases hg : c.tasks.get? i = some TaskPhase.notStarted
  · rw [if_pos hg, if_pos hd]
    refine ⟨rfl, hd, rfl, rfl, rfl, ?_⟩
    intro j hj
    have hij : i ≠ j := fun he => hj (he ▸ hg)
    exact getq_set_other c.tasks i j TaskPhase.done hij
  · rw [if_neg hg]
    exact ⟨rfl, hd, rfl, rfl, rfl, fun _ _ => rfl⟩

theorem startTasks_flagged : ∀ (is : List Nat) (c : EntryConfig),
    c.isDownloading = true →
    (drun c (is.map DAction.startTask)).filename = c.filename ∧
    (drun c (is.map DAction.startTask)).isDownloading = true ∧
    (drun c (is.map DAction.startTask)).waiters = c.waiters ∧
    (drun c (is.map DAction.startTask)).futures = c.futures ∧
    (drun c (is.map DAction.startTask)).invocations = c.invocations ∧
    (∀ j, c.tasks.get? j ≠ some TaskPhase.notStarted →
      (drun c (is.map DAction.startTask)).tasks.get? j = c.tasks.get? j) := by
  intro is
  induction is with
  | nil =>
    intro c hd
    exact ⟨rfl, hd, rfl, rfl, rfl, fun _ _ => rfl⟩
  | cons i t ih =>
    intro c hd
    obtain ⟨h1, h2, h3, h4, h5, h6⟩ := startTask_flagged_step c i hd
    have step : drun c ((i :: t).map DAction.startTask)
        = drun (dstep c (.startTask i)) (t.map DAction.startTask) := rfl
    obtain ⟨g1, g2, g3, g4, g5, g6⟩ := ih (dstep c (.startTask i)) h2
    rw [step]
    refine ⟨g1.trans h1, g2, g3.trans h3, g4.trans h4, g5.trans h5, ?_⟩
    intro j hj
    have hj2 : (dstep c (.startTask i)).tasks.get? j ≠ some TaskPhase.notStarted := by
      rw [h6 j hj]; exact hj
    rw [g6 j hj2]
    exact h6 j hj

theorem c1sched_run (m : Nat) (fname : String) :
    (drun dinit (c1sched (m + 1) fname)).invocations = 1 ∧
    (drun dinit (c1sched (m + 1) fname)).futures
      = resolveAll (List.replicate (m + 1) .pending) (List.range (m + 1))
          .resolvedEntry := by
  have hsplit : drun dinit (c1sched (m + 1) fname)
      = dstep (drun (dstep (drun dinit (List.replicate (m + 1) DAction.getReady))
                 (.startTask 0))
               (((List.range m).map Nat.succ).map DAction.startTask))
          (.finishTask 0 (.ok fname)) := by
    unfold c1sched drun
    rw [List.foldl_append, List.foldl_append, List.range_succ_eq_map, List.map_cons]
    rfl
  have h0 := afterGetReadyN (m + 1)
  set S1 : EntryConfig :=
    { filename := none, isDownloading := true, waiters := List.range (m + 1),
      futures := List.replicate (m + 1) .pending,
      tasks := TaskPhase.working :: List.replicate m .notStarted,
      invocations := 1 } with hS1
  have hs1 : dstep (drun dinit (List.replicate (m + 1) DAction.getReady)) (.startTask 0)
      = S1 := by
    rw [h0]
    rw [dstep_start_go _ 0 (by rw [List.replicate_succ]; rfl) rfl, hS1]
    simp [List.replicate_succ]
  obtain ⟨g1, g2, g3, g4, g5, g6⟩ :=
    startTasks_flagged ((List.range m).map Nat.succ) S1 rfl
  have hget0 : (drun S1 (((List.range m).map Nat.succ).map DAction.startTask)).tasks.get? 0
      = some TaskPhase.working := by
    rw [g6 0 (by rw [hS1]; simp)]
    rfl
  rw [hsplit, hs1]
  constructor
  · rw [dstep_finish_ok _ 0 fname hget0]
    show (drun S1 (((List.range m).map Nat.succ).map DAction.startTask)).invocations = 1
    rw [g5]
  · rw [dstep_finish_ok _ 0 fname hget0]
    show resolveAll (drun S1 (((List.range m).map Nat.succ).map DAction.startTask)).futures
      (drun S1 (((List.range m).map Nat.succ).map DAction.startTask)).waiters
      FutureState.resolvedEntry = _
    rw [g4, g3]

/-- Claim C1: with the per-entry `_is_downloading` flag guaranteeing at
most one `_download` body past its guard in any schedule, n independent
`get_ready_future()` calls (n at least 2) on a not-yet-downloaded entry
trigger exactly one underlying download invocation, and every caller's
future is resolved with the same resolved entry. -/
theorem C1_single_inflight_download (n : Nat) (fname : String) (hn : 2 ≤ n) :
    (∀ as : List DAction, (drun dinit as).tasks.countP isWorking ≤ 1) ∧
    (drun dinit (c1sched n fname)).invocations = 1 ∧
    (drun dinit (c1sched n fname)).futures.length = n ∧
    (∀ j, j < n → (drun dinit (c1sched n fname)).futures.get? j
        = some FutureState.resolvedEntry) := by
  match n, hn with
  | m + 2, _ =>
    obtain ⟨hinv, hfut⟩ := c1sched_run (m + 1) fname
    refine ⟨mutex_at_most_one, hinv, ?_, ?_⟩
    · rw [hfut, resolveAll_length, List.length_replicate]
    · intro j hj
      rw [hfut]
      exact resolveAll_mem FutureState.resolvedEntry (List.range (m + 2))
        (List.replicate (m + 2) FutureState.pending) j (List.mem_range.mpr hj)
        (by rw [List.length_replicate]; exact hj)

/-- Witness for C1: two concurrent callers. -/
theorem C1_single_inflight_download_witness :
    2 ≤ 2 ∧
    ((∀ as : List DAction, (drun dinit as).tasks.countP isWorking ≤ 1) ∧
     (drun dinit (c1sched 2 "generic-track.mp3")).invocations = 1 ∧
     (drun dinit (c1sched 2 "generic-track.mp3")).futures.length = 2 ∧
     (∀ j, j < 2 → (drun dinit (c1sched 2 "generic-track.mp3")).futures.get? j
        = some FutureState.resolvedEntry)) :=
  ⟨by decide, C1_single_inflight_download 2 "generic-track.mp3" (by decide)⟩

/-- Claim C5: when a running `_download` fails, every waiter registered at
that moment is resolved with the same error, the `_is_downloading` flag
is cleared on the failure exit path exactly as on the success path, the
entry is left not downloaded, and the next `get_ready_future()` schedules
a task whose guard passes, i.e. a fresh underlying download attempt. -/
theorem C5_failure_resolution (c : EntryConfig) (i : Nat) (e fname : String)
    (hw : c.tasks.get? i = some TaskPhase.working)
    (hval : ∀ j ∈ c.waiters, j < c.futures.length)
    (hnd : c.filename = none) :
    (∀ j ∈ c.waiters,
       (dstep c (.finishTask i (.error e))).futures.get? j
         = some (FutureState.resolvedError e)) ∧
    (dstep c (.finishTask i (.error e))).isDownloading = false ∧
    (dstep c (.finishTask i (.error e))).filename = none ∧
    (dstep c (.finishTask i (.error e))).waiters = [] ∧
    (dstep c (.finishTask i (.ok fname))).isDownloading = false ∧
    (dstep (dstep c (.finishTask i (.error e))) .getReady).tasks.get? c.tasks.length
      = some TaskPhase.notStarted ∧
    (dstep (dstep (dstep c (.finishTask i (.error e))) .getReady)
        (.startTask c.tasks.length)).invocations = c.invocations + 1 ∧
    (dstep (dstep (dstep c (.finishTask i (.error e))) .getReady)
        (.startTask c.tasks.length)).isDownloading = true := by
  have herr : dstep c (.finishTask i (.error e))
      = { c with futures := resolveAll c.futures c.waiters (.resolvedError e),
                 waiters := [], isDownloading := false,
                 tasks := c.tasks.set i .done } := by
    simp only [dstep]
    rw [if_pos hw]
  have hok : dstep c (.finishTask i (.ok fname))
      = { c with filename := some fname,
                 futures := resolveAll c.futures c.waiters .resolvedEntry,
                 waiters := [], isDownloading := false,
                 tasks := c.tasks.set i .done } := by
    simp only [dstep]
    rw [if_pos hw]
  have hready : dstep (dstep c (.finishTask i (.error e))) .getReady
      = { c with futures := resolveAll c.futures c.waiters (.resolvedError e)
                   ++ [.pending],
                 waiters := [(resolveAll c.futures c.waiters (.resolvedError e)).length],
                 isDownloading := false,
                 tasks := (c.tasks.set i .done) ++ [.notStarted] } := by
    rw [herr]
    rw [dstep_getReady_pend _ (by simp [hnd])]
    simp
  refine ⟨?_, ?_, ?_, ?_, ?_, ?_, ?_, ?_⟩
  · intro j hj
    rw [herr]
    exact resolveAll_mem (FutureState.resolvedError e) c.waiters c.futures j hj (hval j hj)
  · rw [herr]
  · rw [herr]; exact hnd
  · rw [herr]
  · rw [hok]
  · rw [hready]
    show ((c.tasks.set i TaskPhase.done) ++ [TaskPhase.notStarted]).get? c.tasks.length
      = some TaskPhase.notStarted
    rw [show c.tasks.length = (c.tasks.set i TaskPhase.done).length from
      (List.length_set c.tasks i TaskPhase.done).symm]
    exact getq_append_len _ _
  · rw [hready]
    simp only [dstep]
    rw [if_pos (by
      show ((c.tasks.set i TaskPhase.done) ++ [TaskPhase.notStarted]).get? c.tasks.length
        = some TaskPhase.notStarted
      rw [show c.tasks.length = (c.tasks.set i TaskPhase.done).length from
        (List.length_set c.tasks i TaskPhase.done).symm]
      exact getq_append_len _ _)]
    rw [if_neg (by simp)]
  · rw [hready]
    simp only [dstep]
    rw [if_pos (by
      show ((c.tasks.set i TaskPhase.done) ++ [TaskPhase.notStarted]).get? c.tasks.length
        = some TaskPhase.notStarted
      rw [show c.tasks.length = (c.tasks.set i TaskPhase.done).length from
        (List.length_set c.tasks i TaskPhase.done).symm]
      exact getq_append_len _ _)]
    rw [if_neg (by simp)]

def c5cfg : EntryConfig :=
  { filename := none, isDownloading := true, waiters := [0, 1],
    futures := [.pending, .pending], tasks := [.working], invocations := 1 }

/-- Witness for C5 at a concrete in-flight configuration with two
registered waiters. -/
theorem C5_failure_resolution_witness :
    (c5cfg.tasks.get? 0 = some TaskPhase.working ∧
     (∀ j ∈ c5cfg.waiters, j < c5cfg.futures.length) ∧
     c5cfg.filename = none) ∧
    ((∀ j ∈ c5cfg.waiters,
       (dstep c5cfg (.finishTask 0 (.error "boom"))).futures.get? j
         = some (FutureState.resolvedError "boom")) ∧
     (dstep c5cfg (.finishTask 0 (.error "boom"))).isDownloading = false ∧
     (dstep c5cfg (.finishTask 0 (.error "boom"))).filename = none ∧
     (dstep c5cfg (.finishTask 0 (.error "boom"))).waiters = [] ∧
     (dstep c5cfg (.finishTask 0 (.ok "f.mp3"))).isDownloading = false ∧
     (dstep (dstep c5cfg (.finishTask 0 (.error "boom"))) .getReady).tasks.get?
        c5cfg.tasks.length = some TaskPhase.notStarted ∧
     (dstep (dstep (dstep c5cfg (.finishTask 0 (.error "boom"))) .getReady)
        (.startTask c5cfg.tasks.length)).invocations = c5cfg.invocations + 1 ∧
     (dstep (dstep (dstep c5cfg (.finishTask 0 (.error "boom"))) .getReady)
        (.startTask c5cfg.tasks.length)).isDownloading = true) :=
  ⟨⟨by decide, by decide, by decide⟩,
   C5_failure_resolution c5cfg 0 "boom" "f.mp3" (by decide) (by decide) (by decide)⟩

end MT5ABot
